import Mathlib

/-!
Shallow embedding of `src/app/main.py`, a minimal DNS server.

Modelling conventions:
* Python `bytes` values and Python `str` values are both embedded as `List Nat`
  (one entry per byte / per character code).  A domain name such as `"b.a"` is
  the list `[98, 46, 97]`; `"."` is byte 46.  `str.split(".")` is
  `List.splitOn 46` and `".".join` is `List.intercalate [46]`.
* Fallible Python code is embedded in `Except PyErr`; each `PyErr` constructor
  names the Python exception class that the corresponding source line raises
  (`struct.error`, `IndexError`, `UnicodeDecodeError`/`UnicodeEncodeError`,
  `OverflowError`, `AttributeError`).
* `DNSQuestion.unpack` recurses on a compression pointer without any
  structural decrease, so the embedding takes an explicit recursion budget
  (`fuel`); one unit is consumed per loop iteration or recursive call.
  `PyErr.outOfFuel` means the budget ran out: a result of `.error .outOfFuel`
  for every budget models a Python execution that never completes (Python
  itself would die with `RecursionError` once `sys.getrecursionlimit()` is
  exceeded).
* The UDP socket exchange inside `DNSResponse.build_from` (lines 194-201 of
  the source) is dead code for every execution, because it is only reached
  with `resolver = None` and line 190 (`resolver.split(":")`) raises
  `AttributeError` first; the embedding keeps the dead arm visible.
-/

/-- Python runtime exceptions raised by the modelled code paths, plus
`outOfFuel` marking an exhausted recursion budget (see module docstring). -/
inductive PyErr where
  | outOfFuel
  | indexError
  | structError
  | unicodeError
  | overflowError
  | attributeError
  | socketExchange
  deriving DecidableEq

/-- Mirrors the Python dataclass `DNSHeader` (src/app/main.py lines 7-21):
thirteen plain integer fields, no width enforcement on construction. -/
structure DNSHeader where
  id_ : Nat
  qr : Nat
  opcode : Nat
  aa : Nat
  tc : Nat
  rd : Nat
  ra : Nat
  z : Nat
  rcode : Nat
  qdcount : Nat
  ancount : Nat
  nscount : Nat
  arcount : Nat
  deriving DecidableEq

/-- Mirrors `DNSHeader.pack` (lines 23-42).  The flags word is the exact
shift/or chain of the source; `struct.pack(">HHHHHH", ...)` validates that
each of the six 16-bit words is below 2^16 (raising `struct.error` otherwise)
and emits each as two big-endian bytes. -/
def DNSHeader.pack (h : DNSHeader) : Except PyErr (List Nat) :=
  let flags :=
    (h.qr <<< 15) ||| (h.opcode <<< 11) ||| (h.aa <<< 10) ||| (h.tc <<< 9) |||
      (h.rd <<< 8) ||| (h.ra <<< 7) ||| (h.z <<< 4) ||| h.rcode
  if h.id_ < 65536 ∧ flags < 65536 ∧ h.qdcount < 65536 ∧ h.ancount < 65536 ∧
      h.nscount < 65536 ∧ h.arcount < 65536 then
    .ok ([h.id_ / 256, h.id_ % 256] ++ [flags / 256, flags % 256] ++
      [h.qdcount / 256, h.qdcount % 256] ++ [h.ancount / 256, h.ancount % 256] ++
      [h.nscount / 256, h.nscount % 256] ++ [h.arcount / 256, h.arcount % 256])
  else .error .structError

/-- Mirrors `DNSHeader.unpack` (lines 44-69).  `struct.unpack(">HHHHHH", data)`
demands exactly 12 bytes (`struct.error` otherwise); the flag fields are then
recovered by the source's shift/mask expressions. -/
def DNSHeader.unpack (data : List Nat) : Except PyErr DNSHeader :=
  match data with
  | [i1, i2, f1, f2, q1, q2, a1, a2, n1, n2, r1, r2] =>
    let flags := f1 * 256 + f2
    .ok
      { id_ := i1 * 256 + i2
        qr := flags >>> 15
        opcode := (flags >>> 11) &&& 15
        aa := (flags >>> 10) &&& 1
        tc := (flags >>> 9) &&& 1
        rd := (flags >>> 8) &&& 1
        ra := (flags >>> 7) &&& 1
        z := (flags >>> 4) &&& 7
        rcode := flags &&& 15
        qdcount := q1 * 256 + q2
        ancount := a1 * 256 + a2
        nscount := n1 * 256 + n2
        arcount := r1 * 256 + r2 }
  | _ => .error .structError

/-- Mirrors the Python dataclass `DNSQuestion` (lines 72-76); `name` is the
Python string (dot-joined domain name) as a byte list. -/
structure DNSQuestion where
  name : List Nat
  type_ : Nat
  class_ : Nat
  deriving DecidableEq

/-- Mirrors the generator inside `DNSQuestion.pack` / `DNSAnswer.pack`:
`b"".join(len(p).to_bytes(1, "big") + p.encode("ascii") for p in parts)`.
`to_bytes(1, "big")` raises `OverflowError` when the label is longer than 255
bytes; `encode("ascii")` raises `UnicodeEncodeError` on a byte ≥ 128. -/
def encodeParts : List (List Nat) → Except PyErr (List Nat)
  | [] => .ok []
  | p :: ps =>
    if 255 < p.length then .error .overflowError
    else if ∀ b ∈ p, b < 128 then
      match encodeParts ps with
      | .error e => .error e
      | .ok rest => .ok ((p.length :: p) ++ rest)
    else .error .unicodeError

/-- Mirrors `DNSQuestion.pack` (lines 78-86): length-prefixed labels from
`self.name.split(".")`, a zero terminator, then
`struct.pack("!HH", self.type_, self.class_)` (each word must be < 2^16). -/
def DNSQuestion.pack (q : DNSQuestion) : Except PyErr (List Nat) :=
  match encodeParts (q.name.splitOn 46) with
  | .error e => .error e
  | .ok nm =>
    if q.type_ < 65536 ∧ q.class_ < 65536 then
      .ok (nm ++ [0] ++
        [q.type_ / 256, q.type_ % 256, q.class_ / 256, q.class_ % 256])
    else .error .structError

/-- Mirrors the code that runs once `DNSQuestion.unpack`'s label loop stops
(the `break` on a zero length byte, or the `return` in the pointer branch):
`".".join(parts)` then `struct.unpack("!HH", data[:4])`, which demands at
least 4 remaining bytes and consumes them. -/
def readTail (parts : List (List Nat)) (data : List Nat) :
    Except PyErr (DNSQuestion × List Nat) :=
  match data with
  | t1 :: t2 :: c1 :: c2 :: rest =>
    .ok (⟨List.intercalate [46] parts, t1 * 256 + t2, c1 * 256 + c2⟩, rest)
  | _ => .error .structError

/-- Mirrors the `while True` loop of `DNSQuestion.unpack` (lines 88-113) with
`parts` as the accumulated label list.  `data[0]` on an empty buffer raises
`IndexError`.  A length byte with both top bits set is a compression pointer:
the source re-enters `unpack` on `payload[pointer:]` with no guard, so the
embedding spends one unit of `fuel` per iteration/recursive call.  An
ordinary label is sliced with `data[1 : length + 1]` (silently short when the
buffer is) and must decode as ASCII. -/
def unpackGo : Nat → List Nat → List Nat → List (List Nat) →
    Except PyErr (DNSQuestion × List Nat)
  | 0, _, _, _ => .error .outOfFuel
  | _ + 1, [], _, _ => .error .indexError
  | fuel + 1, length :: rest, payload, parts =>
    if length = 0 then
      readTail parts rest
    else if length &&& 192 = 192 then
      match rest with
      | [] => .error .structError
      | b2 :: rest2 =>
        match unpackGo fuel (payload.drop ((length * 256 + b2) &&& 16383)) payload [] with
        | .error e => .error e
        | .ok (q, _) => readTail (parts ++ [q.name]) rest2
    else
      if ∀ b ∈ rest.take length, b < 128 then
        unpackGo fuel (rest.drop length) payload (parts ++ [rest.take length])
      else .error .unicodeError

/-- Mirrors `DNSQuestion.unpack(data, payload)` (classmethod, lines 88-113):
the loop starts with an empty `parts` list. -/
def DNSQuestion.unpack (fuel : Nat) (data payload : List Nat) :
    Except PyErr (DNSQuestion × List Nat) :=
  unpackGo fuel data payload []

/-- Mirrors the Python dataclass `DNSAnswer` (lines 116-123).  `rdata` holds
the dotted-quad components of the Python string already split on `"."` and
converted by `int(...)` (the source only ever builds it from the literal
`"8.8.8.8"`, i.e. `[8, 8, 8, 8]`). -/
structure DNSAnswer where
  name : List Nat
  type_ : Nat
  class_ : Nat
  ttl : Nat
  rdlength : Nat
  rdata : List Nat
  deriving DecidableEq

/-- Mirrors `DNSAnswer.pack` (lines 125-134): length-prefixed labels plus a
zero terminator, `struct.pack("!BBBB", *quad)` for the rdata (exactly four
values, each < 256), and `struct.pack("!HHIH", type_, class_, ttl, rdlength)`
(16/16/32/16-bit words, each range checked), in the source's evaluation
order. -/
def DNSAnswer.pack (a : DNSAnswer) : Except PyErr (List Nat) :=
  match encodeParts (a.name.splitOn 46) with
  | .error e => .error e
  | .ok nm =>
    if a.rdata.length = 4 ∧ ∀ b ∈ a.rdata, b < 256 then
      if a.type_ < 65536 ∧ a.class_ < 65536 ∧ a.ttl < 4294967296 ∧
          a.rdlength < 65536 then
        .ok (nm ++ [0] ++
          [a.type_ / 256, a.type_ % 256, a.class_ / 256, a.class_ % 256,
            a.ttl / 16777216 % 256, a.ttl / 65536 % 256, a.ttl / 256 % 256,
            a.ttl % 256, a.rdlength / 256, a.rdlength % 256] ++ a.rdata)
      else .error .structError
    else .error .structError

/-- Mirrors the Python dataclass `DNSQuery` (lines 137-140). -/
structure DNSQuery where
  header : DNSHeader
  questions : List DNSQuestion
  deriving DecidableEq

/-- Mirrors the `for _ in range(header.qdcount)` loop of `DNSQuery.parse`
(lines 146-150): unpack one question per count from the running cursor,
propagating any exception. -/
def parseQuestionsLoop (fuel : Nat) (payload : List Nat) :
    Nat → List Nat → List DNSQuestion →
    Except PyErr (List DNSQuestion × List Nat)
  | 0, unprocessed, acc => .ok (acc, unprocessed)
  | n + 1, unprocessed, acc =>
    match DNSQuestion.unpack fuel unprocessed payload with
    | .error e => .error e
    | .ok (q, rest) => parseQuestionsLoop fuel payload n rest (acc ++ [q])

/-- Mirrors `DNSQuery.parse` (classmethod, lines 142-152): header from
`payload[:12]`, then exactly `header.qdcount` questions from `payload[12:]`. -/
def DNSQuery.parse (fuel : Nat) (payload : List Nat) : Except PyErr DNSQuery :=
  match DNSHeader.unpack (payload.take 12) with
  | .error e => .error e
  | .ok header =>
    match parseQuestionsLoop fuel payload header.qdcount (payload.drop 12) [] with
    | .error e => .error e
    | .ok (questions, _) => .ok ⟨header, questions⟩

/-- Mirrors the `DNSHeader(...)` construction inside `DNSResponse.build_from`
(lines 160-174), evaluated before the resolver branch. -/
def DNSResponse.responseHeader (query : DNSQuery) : DNSHeader :=
  { id_ := query.header.id_
    qr := 1
    opcode := query.header.opcode
    aa := 0
    tc := 0
    rd := query.header.rd
    ra := 0
    z := 0
    rcode := if query.header.opcode = 0 then 0 else 4
    qdcount := query.header.qdcount
    ancount := query.header.qdcount
    nscount := 0
    arcount := 0 }

/-- Mirrors the `for question in query.questions: response += question.pack()`
loop (lines 176-177). -/
def packQuestions : List DNSQuestion → Except PyErr (List Nat)
  | [] => .ok []
  | q :: qs =>
    match DNSQuestion.pack q with
    | .error e => .error e
    | .ok b =>
      match packQuestions qs with
      | .error e => .error e
      | .ok bs => .ok (b ++ bs)

/-- Mirrors the answer-synthesis loop of the `resolver is not None` branch
(lines 180-188): one `DNSAnswer` per question with type 1, class 1, ttl 60,
rdlength 4 and rdata `"8.8.8.8"`. -/
def packAnswers : List DNSQuestion → Except PyErr (List Nat)
  | [] => .ok []
  | q :: qs =>
    match DNSAnswer.pack ⟨q.name, 1, 1, 60, 4, [8, 8, 8, 8]⟩ with
    | .error e => .error e
    | .ok b =>
      match packAnswers qs with
      | .error e => .error e
      | .ok bs => .ok (b ++ bs)

/-- Mirrors `resolver.split(":")` (line 190) on an optional resolver value:
`None.split` raises `AttributeError`; on a string it splits on `":"`. -/
def strSplitColon : Option String → Except PyErr (List String)
  | none => .error .attributeError
  | some s => .ok (s.splitOn ":")

/-- Mirrors `DNSResponse.build_from(query, resolver)` (lines 155-203) as a
pure function returning the produced bytes (or the raised exception) together
with the `query` object as it stands after the call, so that mutation of the
caller's query is observable.  The source's branch condition is inverted
relative to the spec: `if resolver is not None` synthesizes local answers,
while the `else` branch (taken exactly when `resolver` is `None`) immediately
raises `AttributeError` at `resolver.split(":")`, so the `query.header.qdcount = 1`
mutation and the per-question UDP exchange below it (lines 193-201) are
unreachable; the dead arm is kept visible here. -/
def DNSResponse.build_from (query : DNSQuery) (resolver : Option String) :
    Except PyErr (List Nat) × DNSQuery :=
  match resolver with
  | some _ =>
    (match (DNSResponse.responseHeader query).pack with
      | .error e => .error e
      | .ok hdr =>
        match packQuestions query.questions with
        | .error e => .error e
        | .ok qs =>
          match packAnswers query.questions with
          | .error e => .error e
          | .ok ans => .ok (hdr ++ qs ++ ans), query)
  | none =>
    match strSplitColon none with
    | .error e => (.error e, query)
    | .ok _ =>
      (.error .socketExchange,
        { query with header := { query.header with qdcount := 1 } })

/-- Mirrors the serving loop of `main` (lines 214-223) over a finite trace of
inbound datagrams: each datagram is parsed and answered, but the bare
`except Exception: ... break` makes ANY failure terminate the loop, dropping
all later datagrams.  The returned list holds the datagrams sent back. -/
def mainLoop (resolver : Option String) (fuel : Nat) :
    List (List Nat) → List (List Nat)
  | [] => []
  | d :: ds =>
    match DNSQuery.parse fuel d with
    | .error _ => []
    | .ok query =>
      match (DNSResponse.build_from query resolver).1 with
      | .error _ => []
      | .ok response => response :: mainLoop resolver fuel ds

/-- Wire encoding of a label list with no compression: each label as a length
byte followed by its bytes (the value `encodeParts` returns when every label
passes its checks); used to state the decoder theorems. -/
def encWire (parts : List (List Nat)) : List Nat :=
  (parts.map fun p => p.length :: p).flatten

/-- Concrete header with every field inside its declared bit width, used to
instantiate the round-trip theorem. -/
def sampleHeader : DNSHeader := ⟨258, 1, 5, 0, 1, 1, 0, 3, 9, 2, 3, 4, 5⟩

/-- Concrete header whose `rcode` field (16) exceeds its 4-bit width. -/
def overflowRcodeHeader : DNSHeader := ⟨0, 0, 0, 0, 0, 0, 0, 0, 16, 0, 0, 0, 0⟩

/-- Concrete parsed query (id 7, rd 1, one question `abc` A/IN). -/
def sampleQuery : DNSQuery :=
  ⟨⟨7, 0, 0, 0, 0, 1, 0, 0, 0, 1, 0, 0, 0⟩, [⟨[97, 98, 99], 1, 1⟩]⟩

/-- Well-formed 12-byte datagram: all-zero header, zero questions. -/
def zeroCountDatagram : List Nat := [0, 0, 0, 0, 0, 0, 0, 0, 0, 0, 0, 0]

/-- Message buffer holding the name `a` (with type/class) at offset 0 and, at
offset 7, the name `b` followed by a compression pointer back to offset 0. -/
def pointerPayload : List Nat :=
  [1, 97, 0, 0, 1, 0, 1, 1, 98, 192, 0, 0, 1, 0, 1]

/-- Disjoint bitwise-or is addition: when `a` is a multiple of `2 ^ m` and
`b` lies below `2 ^ m`, the two operands share no set bit. -/
theorem lor_eq_add (m a b : Nat) (ha : 2 ^ m ∣ a) (hb : b < 2 ^ m) :
    a ||| b = a + b := by
  obtain ⟨c, rfl⟩ := ha
  apply Nat.eq_of_testBit_eq
  intro j
  rcases Nat.lt_or_ge j m with hj | hj
  · have h1 : 2 ^ m * c = 2 ^ j * (2 ^ (m - j) * c) := by
      rw [← Nat.mul_assoc, ← Nat.pow_add]
      congr 2
      omega
    have hxj : 2 ^ m * c / 2 ^ j = 2 ^ (m - j) * c := by
      rw [h1, Nat.mul_div_cancel_left _ (Nat.two_pow_pos j)]
    have haj : (2 ^ m * c + b) / 2 ^ j = 2 ^ (m - j) * c + b / 2 ^ j := by
      rw [h1, Nat.mul_add_div (Nat.two_pow_pos j)]
    have heven : 2 ^ (m - j) * c % 2 = 0 := by
      have h2 : (2 : Nat) ∣ 2 ^ (m - j) * c :=
        Dvd.dvd.mul_right (dvd_pow_self 2 (by omega)) c
      omega
    simp only [Nat.testBit_or]
    simp only [Nat.testBit_to_div_mod, hxj, haj]
    rw [Bool.eq_iff_iff]
    simp only [Bool.or_eq_true, decide_eq_true_eq]
    omega
  · have hbj : b / 2 ^ j = 0 :=
      Nat.div_eq_of_lt (lt_of_lt_of_le hb (Nat.pow_le_pow_right (by omega) hj))
    have h2 : (2 : Nat) ^ j = 2 ^ m * 2 ^ (j - m) := by
      rw [← Nat.pow_add]
      congr 1
      omega
    have key : (2 ^ m * c + b) / 2 ^ j = 2 ^ m * c / 2 ^ j := by
      rw [h2, ← Nat.div_div_eq_div_mul, ← Nat.div_div_eq_div_mul,
        Nat.mul_add_div (Nat.two_pow_pos m),
        Nat.mul_div_cancel_left _ (Nat.two_pow_pos m),
        Nat.div_eq_of_lt hb, Nat.add_zero]
    simp only [Nat.testBit_or]
    simp only [Nat.testBit_to_div_mod, key, hbj]
    simp

/-- The flags word built by `DNSHeader.pack`'s shift/or chain equals the
corresponding weighted sum once every field is inside its bit width. -/
theorem flagsWord_eq (qv ov av tv rv rav zv rcv : Nat) (ho : ov < 16)
    (ha : av < 2) (ht : tv < 2) (hr : rv < 2) (hra : rav < 2) (hz : zv < 8)
    (hrc : rcv < 16) :
    (qv <<< 15) ||| (ov <<< 11) ||| (av <<< 10) ||| (tv <<< 9) ||| (rv <<< 8) |||
      (rav <<< 7) ||| (zv <<< 4) ||| rcv
    = qv * 32768 + ov * 2048 + av * 1024 + tv * 512 + rv * 256 + rav * 128 +
        zv * 16 + rcv := by
  have p4 : (2 : Nat) ^ 4 = 16 := by norm_num
  have p7 : (2 : Nat) ^ 7 = 128 := by norm_num
  have p8 : (2 : Nat) ^ 8 = 256 := by norm_num
  have p9 : (2 : Nat) ^ 9 = 512 := by norm_num
  have p10 : (2 : Nat) ^ 10 = 1024 := by norm_num
  have p11 : (2 : Nat) ^ 11 = 2048 := by norm_num
  have p15 : (2 : Nat) ^ 15 = 32768 := by norm_num
  simp only [Nat.shiftLeft_eq, p4, p7, p8, p9, p10, p11, p15]
  rw [lor_eq_add 15 (qv * 32768) (ov * 2048)
      ⟨qv, by rw [p15]; ring⟩ (by rw [p15]; omega)]
  rw [lor_eq_add 11 (qv * 32768 + ov * 2048) (av * 1024)
      ⟨qv * 16 + ov, by rw [p11]; ring⟩ (by rw [p11]; omega)]
  rw [lor_eq_add 10 (qv * 32768 + ov * 2048 + av * 1024) (tv * 512)
      ⟨qv * 32 + ov * 2 + av, by rw [p10]; ring⟩ (by rw [p10]; omega)]
  rw [lor_eq_add 9 (qv * 32768 + ov * 2048 + av * 1024 + tv * 512) (rv * 256)
      ⟨qv * 64 + ov * 4 + av * 2 + tv, by rw [p9]; ring⟩ (by rw [p9]; omega)]
  rw [lor_eq_add 8 (qv * 32768 + ov * 2048 + av * 1024 + tv * 512 + rv * 256)
      (rav * 128)
      ⟨qv * 128 + ov * 8 + av * 4 + tv * 2 + rv, by rw [p8]; ring⟩
      (by rw [p8]; omega)]
  rw [lor_eq_add 7
      (qv * 32768 + ov * 2048 + av * 1024 + tv * 512 + rv * 256 + rav * 128)
      (zv * 16)
      ⟨qv * 256 + ov * 16 + av * 8 + tv * 4 + rv * 2 + rav, by rw [p7]; ring⟩
      (by rw [p7]; omega)]
  rw [lor_eq_add 4
      (qv * 32768 + ov * 2048 + av * 1024 + tv * 512 + rv * 256 + rav * 128 +
        zv * 16) rcv
      ⟨qv * 2048 + ov * 128 + av * 64 + tv * 32 + rv * 16 + rav * 8 + zv,
        by rw [p4]; ring⟩
      (by rw [p4]; omega)]

/-- Core round-trip fact for the header codec: packing then unpacking any
header whose fields respect their bit widths restores the header. -/
theorem DNSHeader.unpack_pack (h : DNSHeader) (hid : h.id_ < 65536)
    (hqr : h.qr < 2) (hop : h.opcode < 16) (haa : h.aa < 2) (htc : h.tc < 2)
    (hrd : h.rd < 2) (hra : h.ra < 2) (hz : h.z < 8) (hrc : h.rcode < 16)
    (hqd : h.qdcount < 65536) (han : h.ancount < 65536)
    (hns : h.nscount < 65536) (har : h.arcount < 65536) :
    (DNSHeader.pack h).bind DNSHeader.unpack = .ok h := by
  have m15 : ∀ x : Nat, x &&& 15 = x % 16 := fun x => by
    have e := Nat.and_pow_two_sub_one_eq_mod x 4
    norm_num at e
    exact e
  have m7 : ∀ x : Nat, x &&& 7 = x % 8 := fun x => by
    have e := Nat.and_pow_two_sub_one_eq_mod x 3
    norm_num at e
    exact e
  have m1 : ∀ x : Nat, x &&& 1 = x % 2 := fun x => Nat.and_one_is_mod x
  obtain ⟨i, q, o, a, t, r, rra, zz, rc, qd, an, ns, ar⟩ := h
  dsimp only at hid hqr hop haa htc hrd hra hz hrc hqd han hns har
  have hflags := flagsWord_eq q o a t r rra zz rc hop haa htc hrd hra hz hrc
  simp only [DNSHeader.pack, hflags]
  rw [if_pos ⟨hid, by omega, hqd, han, hns, har⟩]
  simp only [List.cons_append, List.nil_append, Except.bind, DNSHeader.unpack,
    Nat.shiftRight_eq_div_pow, m15, m7, m1, Except.ok.injEq, DNSHeader.mk.injEq]
  norm_num
  omega

/-- C4: for every `DNSHeader` whose fields all lie within their declared bit
widths (id and the four counts in 16 bits, qr/aa/tc/rd/ra in 1 bit, opcode
and rcode in 4 bits, z in 3 bits), decoding the 12-byte encoding yields the
original header: `DNSHeader.unpack (DNSHeader.pack h) = h`. -/
theorem header_roundtrip (h : DNSHeader) (hid : h.id_ < 65536)
    (hqr : h.qr < 2) (hop : h.opcode < 16) (haa : h.aa < 2) (htc : h.tc < 2)
    (hrd : h.rd < 2) (hra : h.ra < 2) (hz : h.z < 8) (hrc : h.rcode < 16)
    (hqd : h.qdcount < 65536) (han : h.ancount < 65536)
    (hns : h.nscount < 65536) (har : h.arcount < 65536) :
    (DNSHeader.pack h).bind DNSHeader.unpack = .ok h :=
  DNSHeader.unpack_pack h hid hqr hop haa htc hrd hra hz hrc hqd han hns har

/-- Witness for `header_roundtrip` at the concrete in-range header
`sampleHeader`. -/
theorem header_roundtrip_witness :
    (DNSHeader.pack sampleHeader).bind DNSHeader.unpack = .ok sampleHeader :=
  header_roundtrip sampleHeader (by decide) (by decide) (by decide) (by decide)
    (by decide) (by decide) (by decide) (by decide) (by decide) (by decide)
    (by decide) (by decide) (by decide)

/-- C10: `DNSHeader.pack` performs no masking or width validation of its flag
fields: for `overflowRcodeHeader` (rcode = 16, one past the 4-bit width) the
pack succeeds, the overflowing bit lands in the neighboring `z` position, and
decode(encode(h)) differs from h. -/
theorem pack_overflowing_rcode_corrupts :
    DNSHeader.pack overflowRcodeHeader
      = .ok [0, 0, 0, 16, 0, 0, 0, 0, 0, 0, 0, 0] ∧
    DNSHeader.unpack [0, 0, 0, 16, 0, 0, 0, 0, 0, 0, 0, 0]
      = .ok { overflowRcodeHeader with z := 1, rcode := 0 } ∧
    { overflowRcodeHeader with z := 1, rcode := 0 } ≠ overflowRcodeHeader :=
  ⟨rfl, rfl, by decide⟩

/-- C1 fails on the code (code_bug): decoding a name that starts with a
compression pointer whose offset equals the pointer's own position never
raises any `PointerCycle`/`PointerOutOfRange` error (no such guard exists in
`DNSQuestion.unpack`); instead the decode re-enters itself forever — under
every finite recursion budget it only ever exhausts the budget. -/
theorem unpack_self_pointer_diverges :
    ∀ fuel, DNSQuestion.unpack fuel [192, 0] [192, 0] = .error .outOfFuel := by
  intro fuel
  induction fuel with
  | zero => rfl
  | succ n ih =>
    show unpackGo (n + 1) [192, 0] [192, 0] [] = .error .outOfFuel
    rw [unpackGo]
    rw [if_neg (by decide), if_pos (by decide)]
    have harg : List.drop ((192 * 256 + 0) &&& 16383) [192, 0] = [192, 0] := by
      decide
    rw [harg]
    rw [show unpackGo n [192, 0] [192, 0] [] = .error .outOfFuel from ih]

/-- C2 fails on the code (code_bug): with no upstream resolver configured
(`resolver = None`), `DNSResponse.build_from` takes the inverted `else`
branch and raises `AttributeError` at `resolver.split(":")` instead of
answering the questions locally. -/
theorem build_from_none_raises :
    DNSResponse.build_from sampleQuery none
      = (.error .attributeError, sampleQuery) := rfl

/-- C3 fails on the code (code_bug): the serving loop's bare
`except Exception: ... break` terminates the loop on the first malformed
datagram, so a good datagram behind a bad one is never answered, while the
same good datagram alone is. -/
theorem recvLoop_stops_after_malformed :
    mainLoop (some "8.8.8.8") 1 [[], zeroCountDatagram] = [] ∧
    mainLoop (some "8.8.8.8") 1 [zeroCountDatagram]
      = [[0, 0, 128, 0, 0, 0, 0, 0, 0, 0, 0, 0]] := ⟨rfl, rfl⟩

/-- C9: building a response never modifies the parsed query: for every query
and resolver configuration the query object after `DNSResponse.build_from`
is unchanged.  (The `query.header.qdcount = 1` assignment in the source is
unreachable: it sits below `resolver.split(":")`, which raises on the only
path that reaches it.) -/
theorem build_from_preserves_query (query : DNSQuery)
    (resolver : Option String) :
    (DNSResponse.build_from query resolver).2 = query := by
  cases resolver <;> rfl

/-- Buffers that are not exactly 12 bytes make `struct.unpack(">HHHHHH", ...)`
raise, so `DNSHeader.unpack` returns the struct error. -/
theorem DNSHeader.unpack_short (data : List Nat) (hlen : data.length ≠ 12) :
    DNSHeader.unpack data = .error .structError := by
  rcases data with _ | ⟨b0, data⟩
  · rfl
  rcases data with _ | ⟨b1, data⟩
  · rfl
  rcases data with _ | ⟨b2, data⟩
  · rfl
  rcases data with _ | ⟨b3, data⟩
  · rfl
  rcases data with _ | ⟨b4, data⟩
  · rfl
  rcases data with _ | ⟨b5, data⟩
  · rfl
  rcases data with _ | ⟨b6, data⟩
  · rfl
  rcases data with _ | ⟨b7, data⟩
  · rfl
  rcases data with _ | ⟨b8, data⟩
  · rfl
  rcases data with _ | ⟨b9, data⟩
  · rfl
  rcases data with _ | ⟨b10, data⟩
  · rfl
  rcases data with _ | ⟨b11, data⟩
  · rfl
  rcases data with _ | ⟨b12, data⟩
  · simp at hlen
  · rfl

/-- The question loop of `DNSQuery.parse` adds exactly its count argument to
the accumulator whenever it returns successfully. -/
theorem parseQuestionsLoop_length (fuel : Nat) (payload : List Nat) (n : Nat) :
    ∀ (data : List Nat) (acc qs : List DNSQuestion) (rest : List Nat),
      parseQuestionsLoop fuel payload n data acc = .ok (qs, rest) →
      qs.length = acc.length + n := by
  induction n with
  | zero =>
    intro data acc qs rest h
    simp only [parseQuestionsLoop, Except.ok.injEq, Prod.mk.injEq] at h
    obtain ⟨rfl, rfl⟩ := h
    simp
  | succ k ih =>
    intro data acc qs rest h
    rw [parseQuestionsLoop] at h
    rcases hu : DNSQuestion.unpack fuel data payload with e | ⟨q, r⟩
    · rw [hu] at h
      cases h
    · rw [hu] at h
      change parseQuestionsLoop fuel payload k r (acc ++ [q]) = .ok (qs, rest) at h
      have hl := ih r (acc ++ [q]) qs rest h
      simp at hl
      omega

/-- C8: `DNSQuery.parse` parses exactly `header.qdcount` questions, so every
successfully decoded message has `questions.length = header.qdcount`; a
buffer shorter than the 12-byte header fails with the struct (malformed
header) error; and a buffer whose header demands more questions than the
remaining bytes provide fails (here: a 12-byte buffer with qdcount > 0 fails
with `IndexError`) rather than returning a message. -/
theorem parse_question_counts :
    (∀ fuel payload q, DNSQuery.parse fuel payload = .ok q →
      q.questions.length = q.header.qdcount) ∧
    (∀ fuel payload, payload.length < 12 →
      DNSQuery.parse fuel payload = .error .structError) ∧
    (∀ fuel payload hd, payload.length = 12 →
      DNSHeader.unpack payload = .ok hd → 0 < hd.qdcount →
      DNSQuery.parse (fuel + 1) payload = .error .indexError) := by
  refine ⟨?_, ?_, ?_⟩
  · intro fuel payload q h
    rw [DNSQuery.parse] at h
    rcases hh : DNSHeader.unpack (payload.take 12) with e | header
    · rw [hh] at h
      cases h
    · rw [hh] at h
      dsimp only at h
      rcases hl : parseQuestionsLoop fuel payload header.qdcount
          (payload.drop 12) [] with e | ⟨qs, rest⟩
      · rw [hl] at h
        cases h
      · rw [hl] at h
        dsimp only at h
        cases h
        have hlen := parseQuestionsLoop_length fuel payload header.qdcount
          (payload.drop 12) [] qs rest hl
        simpa using hlen
  · intro fuel payload hlen
    rw [DNSQuery.parse]
    rw [DNSHeader.unpack_short (payload.take 12)
      (by simp only [List.length_take]; omega)]
  · intro fuel payload hd hlen hu hqd
    have ht : List.take 12 payload = payload := List.take_of_length_le (by omega)
    have hnil : List.drop 12 payload = [] := List.drop_eq_nil_of_le (by omega)
    rw [DNSQuery.parse, ht, hu]
    dsimp only
    rw [hnil]
    rcases hn : hd.qdcount with _ | k
    · omega
    · rfl

/-- Witness for `parse_question_counts`: a parsed zero-question datagram has
matching counts; an 1-byte buffer and a 12-byte buffer demanding one
question both fail to parse. -/
theorem parse_question_counts_witness :
    (⟨⟨0, 0, 0, 0, 0, 0, 0, 0, 0, 0, 0, 0, 0⟩, []⟩ : DNSQuery).questions.length
      = (⟨⟨0, 0, 0, 0, 0, 0, 0, 0, 0, 0, 0, 0, 0⟩, []⟩ : DNSQuery).header.qdcount ∧
    DNSQuery.parse 1 [0] = .error .structError ∧
    DNSQuery.parse 1 [0, 0, 0, 0, 0, 1, 0, 0, 0, 0, 0, 0] = .error .indexError :=
  ⟨parse_question_counts.1 1 zeroCountDatagram
      ⟨⟨0, 0, 0, 0, 0, 0, 0, 0, 0, 0, 0, 0, 0⟩, []⟩ rfl,
   parse_question_counts.2.1 1 [0] (by decide),
   parse_question_counts.2.2 0 [0, 0, 0, 0, 0, 1, 0, 0, 0, 0, 0, 0]
      ⟨0, 0, 0, 0, 0, 0, 0, 0, 0, 1, 0, 0, 0⟩ rfl rfl (by decide)⟩

/-- When every label fits in one length byte and is ASCII, the pack-side
label generator succeeds and produces the plain wire encoding. -/
theorem encodeParts_ok (parts : List (List Nat))
    (hp : ∀ p ∈ parts, p.length ≤ 255 ∧ ∀ b ∈ p, b < 128) :
    encodeParts parts = .ok (encWire parts) := by
  induction parts with
  | nil => rfl
  | cons p ps ih =>
    obtain ⟨hlen, hascii⟩ := hp p (by simp)
    rw [encodeParts, if_neg (by omega), if_pos hascii,
      ih (fun x hx => hp x (by simp [hx]))]
    rfl

/-- Walking the decoder over the wire encoding of plain labels (each of
length 1-63 and ASCII, so neither the terminator nor the pointer branch can
fire) appends exactly those labels to the accumulated `parts`, consuming one
unit of fuel per label. -/
theorem unpackGo_labels :
    ∀ (ls : List (List Nat)) (fuel : Nat) (suffix payload : List Nat)
      (parts : List (List Nat)),
      (∀ l ∈ ls, 1 ≤ l.length ∧ l.length ≤ 63 ∧ ∀ b ∈ l, b < 128) →
      unpackGo (ls.length + fuel) (encWire ls ++ suffix) payload parts
        = unpackGo fuel suffix payload (parts ++ ls) := by
  intro ls
  induction ls with
  | nil =>
    intro fuel suffix payload parts hls
    simp [encWire]
  | cons l ls ih =>
    intro fuel suffix payload parts hls
    obtain ⟨h1, h63, hascii⟩ := hls l (by simp)
    have hand : l.length &&& 192 ≤ l.length := Nat.and_le_left
    have hstep : encWire (l :: ls) ++ suffix
        = l.length :: (l ++ (encWire ls ++ suffix)) := by
      simp [encWire, List.append_assoc]
    have hlen : (l :: ls).length + fuel = (ls.length + fuel) + 1 := by
      simp only [List.length_cons]
      omega
    rw [hstep, hlen, unpackGo.eq_def]
    dsimp only
    rw [if_neg (by omega), if_neg (by omega)]
    rw [List.take_left, List.drop_left, if_pos hascii]
    rw [ih fuel suffix payload (parts ++ [l]) (fun x hx => hls x (by simp [hx]))]
    simp

/-- C5: for every name made of 1-63-byte ASCII labels (total encoded length
at most 255 bytes), `DNSQuestion.pack` followed by `DNSQuestion.unpack`
recovers the dot-joined name, the type/class words, and leaves the trailing
bytes untouched. -/
theorem name_roundtrip (name : List Nat) (t c : Nat) (payload rest : List Nat)
    (hparts : ∀ p ∈ name.splitOn 46,
      1 ≤ p.length ∧ p.length ≤ 63 ∧ ∀ b ∈ p, b < 128)
    (_htotal : (encWire (name.splitOn 46)).length + 1 ≤ 255)
    (ht : t < 65536) (hc : c < 65536) :
    ∃ out, DNSQuestion.pack ⟨name, t, c⟩ = .ok out ∧
      DNSQuestion.unpack ((name.splitOn 46).length + 1) (out ++ rest) payload
        = .ok (⟨name, t, c⟩, rest) := by
  have henc : encodeParts (name.splitOn 46) = .ok (encWire (name.splitOn 46)) :=
    encodeParts_ok _ (fun p hp =>
      ⟨by have := (hparts p hp).2.1; omega, (hparts p hp).2.2⟩)
  refine ⟨encWire (name.splitOn 46) ++ [0] ++
    [t / 256, t % 256, c / 256, c % 256], ?_, ?_⟩
  · rw [DNSQuestion.pack]
    dsimp only
    rw [henc]
    dsimp only
    rw [if_pos ⟨ht, hc⟩]
  · show unpackGo ((name.splitOn 46).length + 1)
      ((encWire (name.splitOn 46) ++ [0] ++
        [t / 256, t % 256, c / 256, c % 256]) ++ rest) payload []
      = .ok (⟨name, t, c⟩, rest)
    have hassoc : (encWire (name.splitOn 46) ++ [0] ++
        [t / 256, t % 256, c / 256, c % 256]) ++ rest
        = encWire (name.splitOn 46) ++
          (0 :: (t / 256 :: t % 256 :: c / 256 :: c % 256 :: rest)) := by
      simp [List.append_assoc]
    rw [hassoc]
    rw [unpackGo_labels (name.splitOn 46) 1 _ payload [] hparts]
    have hname : List.intercalate [46] (name.splitOn 46) = name :=
      List.intercalate_splitOn name 46
    show (Except.ok ((⟨List.intercalate [46] ([] ++ name.splitOn 46),
        (t / 256) * 256 + t % 256, (c / 256) * 256 + c % 256⟩ : DNSQuestion), rest)
        : Except PyErr (DNSQuestion × List Nat))
      = Except.ok (⟨name, t, c⟩, rest)
    rw [List.nil_append, hname]
    have ht2 : t / 256 * 256 + t % 256 = t := by omega
    have hc2 : c / 256 * 256 + c % 256 = c := by omega
    rw [ht2, hc2]

/-- Witness for `name_roundtrip` at the one-label name `a` with type/class
1/1, empty trailing bytes and empty message buffer. -/
theorem name_roundtrip_witness :
    ∃ out, DNSQuestion.pack ⟨[97], 1, 1⟩ = .ok out ∧
      DNSQuestion.unpack 2 (out ++ []) [] = .ok (⟨[97], 1, 1⟩, []) :=
  name_roundtrip [97] 1 1 [] [] (by decide) (by decide) (by decide) (by decide)

/-- C6: when a name consists of plain labels followed by a compression
pointer (a length byte with both top bits set), decoding yields the same
logical name as decoding the name at the pointer's 14-bit target inside the
whole message buffer, with the labels read before the pointer prepended; and
parsing resumes for the caller exactly 2 bytes after the pointer's position
(the question's type/class are read from the 4 bytes that directly follow
the 2 pointer bytes, and everything after them is handed back). -/
theorem pointer_decompression (ls : List (List Nat)) (b1 b2 t1 t2 c1 c2 : Nat)
    (rest r2 : List Nat) (payload : List Nat) (f : Nat) (nm : List Nat)
    (t' c' : Nat)
    (hls : ∀ l ∈ ls, 1 ≤ l.length ∧ l.length ≤ 63 ∧ ∀ b ∈ l, b < 128)
    (hb1 : b1 &&& 192 = 192)
    (hrec : DNSQuestion.unpack f
      (payload.drop ((b1 * 256 + b2) &&& 16383)) payload = .ok (⟨nm, t', c'⟩, r2)) :
    DNSQuestion.unpack (ls.length + (f + 1))
        (encWire ls ++ b1 :: b2 :: t1 :: t2 :: c1 :: c2 :: rest) payload
      = .ok (⟨List.intercalate [46] (ls ++ [nm]), t1 * 256 + t2, c1 * 256 + c2⟩,
          rest) := by
  have h192 : 192 ≤ b1 := by
    rw [← hb1]
    exact Nat.and_le_left
  show unpackGo (ls.length + (f + 1))
      (encWire ls ++ b1 :: b2 :: t1 :: t2 :: c1 :: c2 :: rest) payload []
      = _
  rw [unpackGo_labels ls (f + 1) _ payload [] hls]
  rw [DNSQuestion.unpack] at hrec
  rw [unpackGo.eq_def]
  dsimp only
  rw [if_neg (by omega), if_pos hb1, hrec]
  simp [readTail]

/-- Witness for `pointer_decompression` inside `pointerPayload`: the name at
offset 7 reads label `b`, then a pointer back to offset 0 where the name `a`
lives, decoding as `b.a` with the cursor handed back right after the
type/class bytes that follow the pointer. -/
theorem pointer_decompression_witness :
    DNSQuestion.unpack 4 [1, 98, 192, 0, 0, 1, 0, 1] pointerPayload
      = .ok (⟨[98, 46, 97], 1, 1⟩, []) :=
  pointer_decompression [[98]] 192 0 0 1 0 1 [] [1, 98, 192, 0, 0, 1, 0, 1]
    pointerPayload 2 [97] 1 1 (by decide) (by decide) rfl

/-- Successful header packing certifies the struct range checks and produces
exactly 12 bytes. -/
theorem DNSHeader.pack_ok (h : DNSHeader) (l : List Nat)
    (hp : DNSHeader.pack h = .ok l) :
    l.length = 12 ∧ h.id_ < 65536 ∧ h.qdcount < 65536 ∧ h.ancount < 65536 ∧
      h.nscount < 65536 ∧ h.arcount < 65536 := by
  simp only [DNSHeader.pack] at hp
  split at hp
  next hc =>
    cases hp
    exact ⟨by simp, hc.1, hc.2.2.1, hc.2.2.2.1, hc.2.2.2.2.1, hc.2.2.2.2.2⟩
  next =>
    cases hp

/-- C7: for every parsed query (opcode in 0-15, rd a single bit) and any
configured resolver, whenever `DNSResponse.build_from` returns bytes, their
first 12 bytes decode to a header with the query's id, qr = 1, opcode and rd
echoed, aa = tc = ra = z = 0, nscount = arcount = 0, and rcode 0 exactly when
the query's opcode is 0 and 4 otherwise. -/
theorem response_header_fields (query : DNSQuery) (r : String)
    (out : List Nat) (hop : query.header.opcode < 16)
    (hrd : query.header.rd < 2)
    (hbuild : (DNSResponse.build_from query (some r)).1 = .ok out) :
    DNSHeader.unpack (out.take 12) = .ok
      { id_ := query.header.id_, qr := 1, opcode := query.header.opcode,
        aa := 0, tc := 0, rd := query.header.rd, ra := 0, z := 0,
        rcode := if query.header.opcode = 0 then 0 else 4,
        qdcount := query.header.qdcount, ancount := query.header.qdcount,
        nscount := 0, arcount := 0 } := by
  rw [DNSResponse.build_from] at hbuild
  dsimp only at hbuild
  rcases hp : (DNSResponse.responseHeader query).pack with e | hdr
  · rw [hp] at hbuild
    cases hbuild
  rw [hp] at hbuild
  dsimp only at hbuild
  rcases hq : packQuestions query.questions with e | qs
  · rw [hq] at hbuild
    cases hbuild
  rw [hq] at hbuild
  dsimp only at hbuild
  rcases ha : packAnswers query.questions with e | ans
  · rw [ha] at hbuild
    cases hbuild
  rw [ha] at hbuild
  dsimp only at hbuild
  cases hbuild
  obtain ⟨hlen, hid, hqd, han, hns, har⟩ := DNSHeader.pack_ok _ _ hp
  have htake : (hdr ++ qs ++ ans).take 12 = hdr := by
    rw [List.append_assoc]
    exact List.take_left' hlen
  rw [htake]
  have hrt := DNSHeader.unpack_pack (DNSResponse.responseHeader query)
    hid (by norm_num [DNSResponse.responseHeader]) hop
    (by norm_num [DNSResponse.responseHeader])
    (by norm_num [DNSResponse.responseHeader]) hrd
    (by norm_num [DNSResponse.responseHeader])
    (by norm_num [DNSResponse.responseHeader])
    (by dsimp only [DNSResponse.responseHeader]; split <;> norm_num)
    hqd han hns har
  rw [hp] at hrt
  dsimp only [Except.bind] at hrt
  exact hrt

/-- Witness for `response_header_fields` on `sampleQuery` (id 7, opcode 0,
rd 1, one question): the reply's first 12 bytes decode to id 7, qr 1,
opcode 0, rd 1, rcode 0, all other flags and ns/ar counts 0. -/
theorem response_header_fields_witness :
    DNSHeader.unpack (([0, 7, 129, 0, 0, 1, 0, 1, 0, 0, 0, 0, 3, 97, 98, 99,
        0, 0, 1, 0, 1, 3, 97, 98, 99, 0, 0, 1, 0, 1, 0, 0, 0, 60, 0, 4,
        8, 8, 8, 8] : List Nat).take 12)
      = .ok ⟨7, 1, 0, 0, 0, 1, 0, 0, 0, 1, 1, 0, 0⟩ :=
  response_header_fields sampleQuery "r" _ (by decide) (by decide) rfl
